import Mathlib

/-!
Shallow embedding of `curvefs/src/mds/mds.cpp` (the `curvefs::mds::Mds`
lifecycle / leader-election controller) and proofs of its specified
properties.

Modelling conventions:
* `MdsState` mirrors the member fields of the `Mds` class; smart-pointer
  members are modelled as `Bool` ("has been constructed") or as an
  `Option` carrying the constructed value when its contents matter.
* `Env` is the external world: the configuration store, the etcd client
  status codes, the fs-manager init result, the brpc return codes and the
  per-attempt results of `LeaderElection::CampaginLeader`.
* Each member function becomes a Lean function from `Env` and `MdsState`
  to `Except (List Event) (MdsState × List Event)`: `.error t` models the
  process terminating through `LOG_IF(FATAL, ...)` after emitting the
  events `t`; `.ok (s, t)` models a normal return with post-state `s` and
  emitted events `t`.
* The unbounded `while (0 != CampaginLeader())` loop is modelled with
  explicit fuel; `none` means the fuel ran out before the loop exited.
-/

namespace CurveMds

/-- Status codes of the etcd client (`EtcdErrCode`).  The code only ever
distinguishes `EtcdOK`, `EtcdKeyNotExist` and "anything else", so every
other code is collapsed into `EtcdOther`. -/
inductive EtcdErrCode where
  | EtcdOK
  | EtcdKeyNotExist
  | EtcdOther (code : Nat)
  deriving DecidableEq, Repr

/-- Observable events emitted by the controller, in program order:
log lines, configuration reads, construction of collaborators, network
probes, brpc server calls, status publications and election calls. -/
inductive Event where
  | logInfo
  | logError
  | logWarning
  | configRead (key : String)
  | constructEtcdClient
  | etcdClientInit
  | etcdGet (key : String)
  | constructFsStorage
  | constructSpaceClient
  | constructMetaserverClient
  | constructFsManager
  | fsManagerInit
  | constructChunkIdAllocator
  | exposeMetric (name : String)
  | exposeStatus (name : String)
  | setStatus (value : String)
  | startDummyServerAt
  | constructLeaderElection
  | campaign
  | startObserverLeader
  | addService
  | serverStart (addr : String)
  | runUntilAskedToQuit
  | askToQuit
  | fsManagerUninit
  deriving DecidableEq, Repr

/-- The option fields read by `Mds::InitOptions`. -/
structure MdsOptions where
  mdsListenAddr : String
  dummyPort : String
  spaceAddr : String
  spaceRpcTimeoutMs : String
  metaserverAddr : String
  metaserverRpcTimeoutMs : String
  deriving DecidableEq, Repr

/-- `LeaderElectionOptions` as filled in by `Mds::InitLeaderElectionOption`
and `Mds::StartCompaginLeader`.  `campaginPrefixStr` is the
`campaginPrefix` field of the C++ struct; `etcdCliAttached` records that
the `etcdCli` shared pointer was assigned. -/
structure LeaderElectionOptions where
  leaderUniqueName : String
  sessionInterSec : String
  electionTimeoutMs : String
  campaginPrefixStr : String
  etcdCliAttached : Bool
  deriving DecidableEq, Repr

/-- A default-constructed `LeaderElectionOptions` (empty strings, no
client attached), as produced by `LeaderElectionOptions electionOption;`. -/
def defaultElectionOptions : LeaderElectionOptions :=
  { leaderUniqueName := ""
    sessionInterSec := ""
    electionTimeoutMs := ""
    campaginPrefixStr := ""
    etcdCliAttached := false }

/-- The member fields of the `Mds` class.  Smart-pointer members whose
contents never matter are `Bool` ("constructed"); `leaderElection_`
carries the options it was constructed from, and `status_` carries the
currently published bvar string value (`none` before any `set_value`). -/
structure MdsState where
  conf_ : Bool
  inited_ : Bool
  running_ : Bool
  fsManager_ : Bool
  fsStorage_ : Bool
  spaceClient_ : Bool
  metaserverClient_ : Bool
  options_ : MdsOptions
  etcdClientInited_ : Bool
  etcdClient_ : Bool
  leaderElection_ : Option LeaderElectionOptions
  status_ : Option String
  statusExposed_ : Bool
  etcdEndpoint_ : String
  chunkIdAllocator_ : Bool
  deriving DecidableEq, Repr

/-- The state established by the constructor `Mds::Mds()`. -/
def initialState : MdsState :=
  { conf_ := false
    inited_ := false
    running_ := false
    fsManager_ := false
    fsStorage_ := false
    spaceClient_ := false
    metaserverClient_ := false
    options_ :=
      { mdsListenAddr := ""
        dummyPort := ""
        spaceAddr := ""
        spaceRpcTimeoutMs := ""
        metaserverAddr := ""
        metaserverRpcTimeoutMs := "" }
    etcdClientInited_ := false
    etcdClient_ := false
    leaderElection_ := none
    status_ := none
    statusExposed_ := false
    etcdEndpoint_ := ""
    chunkIdAllocator_ := false }

/-- The external world: configuration values, etcd client results, the
fs-manager init result, brpc return codes and the result of the i-th call
to `LeaderElection::CampaginLeader`. -/
structure Env where
  conf : String → String
  etcdInitResult : EtcdErrCode
  etcdGetResult : EtcdErrCode
  fsManagerInitOk : Bool
  addServiceResult : Int
  serverStartResult : Int
  dummyServerResult : Int
  campaignResult : Nat → Int

/-- `Mds::InitOptions`: reads the six required configuration keys into
`options_` and stores the configuration handle. -/
def InitOptions (env : Env) (s : MdsState) : MdsState × List Event :=
  ({ s with
      conf_ := true
      options_ :=
        { mdsListenAddr := env.conf "mds.listen.addr"
          dummyPort := env.conf "mds.dummy.port"
          spaceAddr := env.conf "space.addr"
          spaceRpcTimeoutMs := env.conf "space.rpcTimeoutMs"
          metaserverAddr := env.conf "metaserver.addr"
          metaserverRpcTimeoutMs := env.conf "metaserver.rpcTimeoutMs" } },
   [Event.configRead "mds.listen.addr", Event.configRead "mds.dummy.port",
    Event.configRead "space.addr", Event.configRead "space.rpcTimeoutMs",
    Event.configRead "metaserver.addr",
    Event.configRead "metaserver.rpcTimeoutMs"])

/-- `Mds::CheckEtcd`: probes the store with `Get("test")`; any status
other than `EtcdOK` or `EtcdKeyNotExist` yields `false` (after an error
log), otherwise `true` (after an info log). -/
def CheckEtcd (env : Env) : Bool × List Event :=
  if env.etcdGetResult ≠ EtcdErrCode.EtcdOK ∧
      env.etcdGetResult ≠ EtcdErrCode.EtcdKeyNotExist then
    (false, [Event.etcdGet "test", Event.logError])
  else
    (true, [Event.etcdGet "test", Event.logInfo])

/-- `Mds::InitEtcdConf`: reads `etcd.endpoint` into `etcdEndpoint_` and
`etcd.dailtimeoutMs` into the conf struct, logging both. -/
def InitEtcdConf (env : Env) (s : MdsState) : MdsState × List Event :=
  ({ s with etcdEndpoint_ := env.conf "etcd.endpoint" },
   [Event.configRead "etcd.endpoint", Event.configRead "etcd.dailtimeoutMs",
    Event.logInfo, Event.logInfo])

/-- `Mds::InitEtcdClient`: returns immediately when `etcdClientInited_`
is already set; otherwise reads the etcd configuration, constructs the
client, fatally terminates when `Init` is not `EtcdOK` or when
`CheckEtcd` fails, and finally records `etcdClientInited_ = true`. -/
def InitEtcdClient (env : Env) (s : MdsState) :
    Except (List Event) (MdsState × List Event) :=
  if s.etcdClientInited_ then
    .ok (s, [])
  else
    let sc := InitEtcdConf env s
    let tHead := sc.2 ++
      [Event.configRead "etcd.operation.timeoutMs",
       Event.configRead "etcd.retry.times",
       Event.constructEtcdClient, Event.etcdClientInit]
    if env.etcdInitResult ≠ EtcdErrCode.EtcdOK then
      .error tHead
    else if (CheckEtcd env).1 then
      .ok ({ sc.1 with etcdClient_ := true, etcdClientInited_ := true },
           tHead ++ (CheckEtcd env).2 ++ [Event.logInfo])
    else
      .error (tHead ++ (CheckEtcd env).2)

/-- `Mds::Init`: initializes the etcd client, constructs the persistence
layer, the downstream clients and the fs manager, fatally terminates when
`fsManager_->Init()` fails, then sets `inited_ = true`. -/
def Init (env : Env) (s : MdsState) :
    Except (List Event) (MdsState × List Event) :=
  match InitEtcdClient env s with
  | .error t => .error (Event.logInfo :: t)
  | .ok st =>
    let s2 := { st.1 with
      fsStorage_ := true
      spaceClient_ := true
      metaserverClient_ := true
      fsManager_ := true }
    let t2 := st.2 ++
      [Event.constructFsStorage, Event.constructSpaceClient,
       Event.constructMetaserverClient, Event.constructFsManager,
       Event.fsManagerInit]
    if env.fsManagerInitOk then
      .ok ({ s2 with chunkIdAllocator_ := true, inited_ := true },
           Event.logInfo :: t2 ++
             [Event.constructChunkIdAllocator, Event.logInfo])
    else
      .error (Event.logInfo :: t2)

/-- `Mds::Run`: when `inited_` is false, logs an error and returns with
no further effect; otherwise registers the service (fatal on failure),
starts the brpc server on `options_.mdsListenAddr` (fatal on failure),
sets `running_ = true` and blocks in `RunUntilAskedToQuit`. -/
def Run (env : Env) (s : MdsState) :
    Except (List Event) (MdsState × List Event) :=
  if s.inited_ = false then
    .ok (s, [Event.logInfo, Event.logError])
  else if env.addServiceResult ≠ 0 then
    .error [Event.logInfo, Event.addService]
  else if env.serverStartResult ≠ 0 then
    .error [Event.logInfo, Event.addService,
            Event.serverStart s.options_.mdsListenAddr]
  else
    .ok ({ s with running_ := true },
         [Event.logInfo, Event.addService,
          Event.serverStart s.options_.mdsListenAddr,
          Event.runUntilAskedToQuit])

/-- `Mds::Stop`: when `running_` is false, logs a warning and returns;
otherwise calls `brpc::AskToQuit()` and `fsManager_->Uninit()`.  No
member field is written on either path. -/
def Stop (s : MdsState) : MdsState × List Event :=
  if s.running_ = false then
    (s, [Event.logInfo, Event.logWarning])
  else
    (s, [Event.logInfo, Event.askToQuit, Event.fsManagerUninit])

/-- `Mds::StartDummyServer`: exposes the metric and the status bvar,
publishes `"follower"`, then fatally terminates when
`brpc::StartDummyServerAt` fails. -/
def StartDummyServer (env : Env) (s : MdsState) :
    Except (List Event) (MdsState × List Event) :=
  let s1 := { s with statusExposed_ := true, status_ := some "follower" }
  let t1 := [Event.exposeMetric "curvefs_mds",
             Event.exposeStatus "curvefs_mds_status",
             Event.setStatus "follower", Event.startDummyServerAt]
  if env.dummyServerResult ≠ 0 then
    .error t1
  else
    .ok (s1, t1)

/-- `Mds::InitLeaderElectionOption`: fills `leaderUniqueName` from
`mds.listen.addr`, `sessionInterSec` and `electionTimeoutMs` from the
corresponding leader keys. -/
def InitLeaderElectionOption (env : Env) (opt : LeaderElectionOptions) :
    LeaderElectionOptions × List Event :=
  ({ opt with
      leaderUniqueName := env.conf "mds.listen.addr"
      sessionInterSec := env.conf "leader.sessionInterSec"
      electionTimeoutMs := env.conf "leader.electionTimeoutMs" },
   [Event.configRead "mds.listen.addr",
    Event.configRead "leader.sessionInterSec",
    Event.configRead "leader.electionTimeoutMs"])

/-- The `while (0 != leaderElection_->CampaginLeader())` loop, with
explicit fuel.  `f i` is the result of the i-th campaign call; each
failing call logs and retries, the succeeding call exits the loop.
Returns the emitted events, or `none` when the fuel runs out. -/
def campaignLoop (f : Nat → Int) : Nat → Nat → Option (List Event)
  | 0, _ => none
  | fuel + 1, i =>
    if f i = 0 then
      some [Event.campaign]
    else
      match campaignLoop f fuel (i + 1) with
      | none => none
      | some t => some (Event.campaign :: Event.logInfo :: t)

/-- `Mds::StartCompaginLeader`: ensures the etcd client is initialized
(fatal path propagates), builds the election options (attaching the
client and setting the campaign namespace field to `""`), constructs the
`LeaderElection`, loops on `CampaginLeader` until success, publishes
`"leader"` and starts the leadership observer.  `none` models the loop
not having exited within `fuel` calls. -/
def StartCompaginLeader (env : Env) (fuel : Nat) (s : MdsState) :
    Option (Except (List Event) (MdsState × List Event)) :=
  match InitEtcdClient env s with
  | .error t => some (.error t)
  | .ok st =>
    let eo := InitLeaderElectionOption env defaultElectionOptions
    let opt2 := { eo.1 with etcdCliAttached := true, campaginPrefixStr := "" }
    match campaignLoop env.campaignResult fuel 0 with
    | none => none
    | some t3 =>
      some (.ok
        ({ st.1 with leaderElection_ := some opt2, status_ := some "leader" },
         st.2 ++ eo.2 ++ [Event.constructLeaderElection] ++ t3 ++
           [Event.logInfo, Event.setStatus "leader",
            Event.startObserverLeader]))

/-- The prescribed sequential driving order of one process lifetime:
`InitOptions`, `Init`, `StartDummyServer`, `StartCompaginLeader`, `Run`,
`Stop`, threading the state and concatenating the event traces.  A fatal
termination anywhere propagates as `.error`; `none` means the campaign
loop did not exit within `fuel` calls. -/
def driver (env : Env) (fuel : Nat) :
    Option (Except (List Event) (MdsState × List Event)) :=
  let st0 := InitOptions env initialState
  match Init env st0.1 with
  | .error t => some (.error (st0.2 ++ t))
  | .ok st1 =>
    match StartDummyServer env st1.1 with
    | .error t => some (.error (st0.2 ++ st1.2 ++ t))
    | .ok st2 =>
      match StartCompaginLeader env fuel st2.1 with
      | none => none
      | some (.error t) => some (.error (st0.2 ++ st1.2 ++ st2.2 ++ t))
      | some (.ok st3) =>
        match Run env st3.1 with
        | .error t =>
          some (.error (st0.2 ++ st1.2 ++ st2.2 ++ st3.2 ++ t))
        | .ok st4 =>
          some (.ok ((Stop st4.1).1,
            st0.2 ++ st1.2 ++ st2.2 ++ st3.2 ++ st4.2 ++ (Stop st4.1).2))

/-- The sequence of values published to the status bvar, extracted from
an event trace. -/
def statusWrites (t : List Event) : List String :=
  t.filterMap fun e =>
    match e with
    | Event.setStatus v => some v
    | _ => none

/-- Events that can occur in a successful `InitEtcdClient` trace: logs,
configuration reads, client construction and the two etcd calls.  In
particular neither a campaign call nor a status publication is quiet. -/
def quietEvent : Event → Bool
  | Event.logInfo => true
  | Event.logError => true
  | Event.configRead _ => true
  | Event.constructEtcdClient => true
  | Event.etcdClientInit => true
  | Event.etcdGet _ => true
  | _ => false

/-- A healthy concrete environment: every configuration key yields a
short literal, every collaborator succeeds, the first campaign call
wins.  Used by the witnesses. -/
def envOK : Env :=
  { conf := fun _ => "cfg"
    etcdInitResult := EtcdErrCode.EtcdOK
    etcdGetResult := EtcdErrCode.EtcdOK
    fsManagerInitOk := true
    addServiceResult := 0
    serverStartResult := 0
    dummyServerResult := 0
    campaignResult := fun _ => 0 }

/-- Like `envOK` but the first campaign call loses and the second
wins. -/
def envRetryW : Env :=
  { envOK with campaignResult := fun i => if i = 0 then 1 else 0 }

/-- Like `envOK` but the `Get("test")` probe reports a transport-style
error. -/
def envBadGetW : Env :=
  { envOK with etcdGetResult := EtcdErrCode.EtcdOther 5 }

/-- A state whose etcd client is already initialized; used to drive
`StartCompaginLeader` directly in witnesses. -/
def sEtcdInitedW : MdsState :=
  { initialState with etcdClientInited_ := true, etcdClient_ := true }

/-- The final state of one full healthy lifecycle run (`driver envOK 1`).
Since `Stop` writes no field, this is also the post-`Run` state; in
particular its `running_` is `true`. -/
def driverFinalW : MdsState :=
  match driver envOK 1 with
  | some (Except.ok st) => st.1
  | _ => initialState

/-- The state after `InitOptions` and `Init` under `envOK`. -/
def sAfterInitW : MdsState :=
  match Init envOK (InitOptions envOK initialState).1 with
  | Except.ok st => st.1
  | Except.error _ => initialState

/-- The state after `InitOptions`, `Init` and `Run` under `envOK`; its
`running_` is `true`. -/
def sAfterRunW : MdsState :=
  match Run envOK sAfterInitW with
  | Except.ok st => st.1
  | Except.error _ => initialState

/-- States reachable by calling the member functions in any order under
any environments, starting from the state built by the `Mds()`
constructor.  A fatally terminated call produces no successor state. -/
inductive Reachable : MdsState → Prop where
  | start : Reachable initialState
  | initOptions (env : Env) (s : MdsState) :
      Reachable s → Reachable (InitOptions env s).1
  | initOp (env : Env) (s : MdsState) (st : MdsState × List Event) :
      Reachable s → Init env s = Except.ok st → Reachable st.1
  | initEtcd (env : Env) (s : MdsState) (st : MdsState × List Event) :
      Reachable s → InitEtcdClient env s = Except.ok st → Reachable st.1
  | dummy (env : Env) (s : MdsState) (st : MdsState × List Event) :
      Reachable s → StartDummyServer env s = Except.ok st → Reachable st.1
  | campaignOp (env : Env) (fuel : Nat) (s : MdsState)
      (st : MdsState × List Event) :
      Reachable s → StartCompaginLeader env fuel s = some (Except.ok st) →
      Reachable st.1
  | runOp (env : Env) (s : MdsState) (st : MdsState × List Event) :
      Reachable s → Run env s = Except.ok st → Reachable st.1
  | stopOp (s : MdsState) : Reachable s → Reachable (Stop s).1

/-! ## Helper lemmas about status publications -/

theorem statusWrites_append (a b : List Event) :
    statusWrites (a ++ b) = statusWrites a ++ statusWrites b := by
  simp [statusWrites]

theorem mem_statusWrites_of_mem (v : String) (t : List Event)
    (h : Event.setStatus v ∈ t) : v ∈ statusWrites t := by
  simp only [statusWrites, List.mem_filterMap]
  exact ⟨Event.setStatus v, h, rfl⟩

theorem statusWrites_eq_nil (t : List Event)
    (h : ∀ v, Event.setStatus v ∉ t) : statusWrites t = [] := by
  induction t with
  | nil => rfl
  | cons e rest ih =>
    have hrest : ∀ v, Event.setStatus v ∉ rest := by
      intro v hv
      exact h v (List.mem_cons_of_mem _ hv)
    cases e <;> simp_all [statusWrites, List.filterMap_cons]

/-! ## C1 -/

/-- C1: the startup health probe classifies coordination-store results
in exactly two ways: `CheckEtcd` is `true` iff `Get("test")` returns
`EtcdOK` or `EtcdKeyNotExist`; whenever the probe runs (client not yet
initialized, client `Init` succeeded), a `true` check lets
`InitEtcdClient` return normally and a `false` check makes it terminate
the process fatally. -/
theorem checkEtcd_classification (env : Env) (s : MdsState)
    (hni : s.etcdClientInited_ = false)
    (hinit : env.etcdInitResult = EtcdErrCode.EtcdOK) :
    ((CheckEtcd env).1 = true ↔
      (env.etcdGetResult = EtcdErrCode.EtcdOK ∨
        env.etcdGetResult = EtcdErrCode.EtcdKeyNotExist)) ∧
    ((CheckEtcd env).1 = true →
      ∃ p, InitEtcdClient env s = Except.ok p) ∧
    ((CheckEtcd env).1 = false →
      ∃ t, InitEtcdClient env s = Except.error t) := by
  refine ⟨?_, ?_, ?_⟩
  · by_cases h : env.etcdGetResult ≠ EtcdErrCode.EtcdOK ∧
        env.etcdGetResult ≠ EtcdErrCode.EtcdKeyNotExist
    · simp [CheckEtcd, h, h.1, h.2]
    · rw [Decidable.not_and_iff_or_not, not_ne_iff, not_ne_iff] at h
      rcases h with h | h <;> simp [CheckEtcd, h]
  · intro hc
    cases hI : InitEtcdClient env s with
    | ok p => exact ⟨p, rfl⟩
    | error t =>
      exfalso
      simp [InitEtcdClient, hni, hinit, hc] at hI
  · intro hc
    cases hI : InitEtcdClient env s with
    | error t => exact ⟨t, rfl⟩
    | ok p =>
      exfalso
      simp [InitEtcdClient, hni, hinit, hc] at hI

theorem checkEtcd_classification_witness :
    (((CheckEtcd envOK).1 = true ↔
      (envOK.etcdGetResult = EtcdErrCode.EtcdOK ∨
        envOK.etcdGetResult = EtcdErrCode.EtcdKeyNotExist)) ∧
    ((CheckEtcd envOK).1 = true →
      ∃ p, InitEtcdClient envOK initialState = Except.ok p) ∧
    ((CheckEtcd envOK).1 = false →
      ∃ t, InitEtcdClient envOK initialState = Except.error t)) :=
  checkEtcd_classification envOK initialState rfl rfl

/-! ## C2 -/

/-- C2: whenever `inited_` is false, `Run` logs an error and returns at
once: the post-state is the pre-state unchanged, and the trace shows no
service registration, no server start on any address and no blocking
serve loop. -/
theorem run_before_init (env : Env) (s : MdsState)
    (h : s.inited_ = false) :
    ∃ t, Run env s = Except.ok (s, t) ∧
      Event.logError ∈ t ∧
      Event.addService ∉ t ∧
      (∀ a, Event.serverStart a ∉ t) ∧
      Event.runUntilAskedToQuit ∉ t := by
  refine ⟨[Event.logInfo, Event.logError], ?_, ?_, ?_, ?_, ?_⟩
  · simp [Run, h]
  · simp
  · simp
  · intro a; simp
  · simp

theorem run_before_init_witness :
    ∃ t, Run envOK initialState = Except.ok (initialState, t) ∧
      Event.logError ∈ t ∧
      Event.addService ∉ t ∧
      (∀ a, Event.serverStart a ∉ t) ∧
      Event.runUntilAskedToQuit ∉ t :=
  run_before_init envOK initialState rfl

/-! ## C6 -/

/-- C6: whenever `running_` is false, `Stop` logs a warning and returns
as a no-op: the state is unchanged and the trace shows neither the quit
signal to the RPC server nor the metadata manager `Uninit`. -/
theorem stop_not_running (s : MdsState) (h : s.running_ = false) :
    (Stop s).1 = s ∧
    Event.logWarning ∈ (Stop s).2 ∧
    Event.askToQuit ∉ (Stop s).2 ∧
    Event.fsManagerUninit ∉ (Stop s).2 := by
  have hs : Stop s = (s, [Event.logInfo, Event.logWarning]) := by
    simp [Stop, h]
  rw [hs]
  refine ⟨rfl, ?_, ?_, ?_⟩ <;> simp

theorem stop_not_running_witness :
    (Stop initialState).1 = initialState ∧
    Event.logWarning ∈ (Stop initialState).2 ∧
    Event.askToQuit ∉ (Stop initialState).2 ∧
    Event.fsManagerUninit ∉ (Stop initialState).2 :=
  stop_not_running initialState rfl

/-! ## C9 -/

/-- C9: `Stop` writes no member field — its post-state equals its
pre-state on every path — so `running_` is never reset, and every call
made while `running_` is true signals the RPC server to quit and calls
the metadata manager `Uninit`, including a repeated call. -/
theorem stop_frame (s : MdsState) :
    (Stop s).1 = s ∧
    (s.running_ = true →
      Event.askToQuit ∈ (Stop s).2 ∧
      Event.fsManagerUninit ∈ (Stop s).2 ∧
      Event.askToQuit ∈ (Stop (Stop s).1).2 ∧
      Event.fsManagerUninit ∈ (Stop (Stop s).1).2) := by
  have h1 : (Stop s).1 = s := by
    by_cases h : s.running_ = false <;> simp [Stop, h]
  refine ⟨h1, fun hr => ?_⟩
  have hs : Stop s = (s, [Event.logInfo, Event.askToQuit,
      Event.fsManagerUninit]) := by
    simp [Stop, hr]
  rw [h1, hs]
  refine ⟨?_, ?_, ?_, ?_⟩ <;> simp

theorem stop_frame_witness :
    driverFinalW.running_ = true ∧
    ((Stop driverFinalW).1 = driverFinalW ∧
    (driverFinalW.running_ = true →
      Event.askToQuit ∈ (Stop driverFinalW).2 ∧
      Event.fsManagerUninit ∈ (Stop driverFinalW).2 ∧
      Event.askToQuit ∈ (Stop (Stop driverFinalW).1).2 ∧
      Event.fsManagerUninit ∈ (Stop (Stop driverFinalW).1).2)) :=
  ⟨by decide, stop_frame driverFinalW⟩

/-! ## C3 -/

theorem initEtcdClient_flag_of_ok (env : Env) (s s1 : MdsState)
    (t1 : List Event) (h : InitEtcdClient env s = Except.ok (s1, t1)) :
    s1.etcdClientInited_ = true := by
  simp only [InitEtcdClient] at h
  split at h
  · next hb =>
    rw [Except.ok.injEq, Prod.mk.injEq] at h
    obtain ⟨hs, -⟩ := h
    rw [← hs]
    exact hb
  · split at h
    · simp at h
    · split at h
      · rw [Except.ok.injEq, Prod.mk.injEq] at h
        obtain ⟨hs, -⟩ := h
        rw [← hs]
      · simp at h

/-- C3: after a first successful `InitEtcdClient` call, every
subsequent call (under any environment, so no configuration read and no
network call takes place) returns immediately with an empty trace and
the identical state. -/
theorem initEtcdClient_idempotent (env1 env2 : Env) (s s1 : MdsState)
    (t1 : List Event) (h : InitEtcdClient env1 s = Except.ok (s1, t1)) :
    InitEtcdClient env2 s1 = Except.ok (s1, []) := by
  have hflag := initEtcdClient_flag_of_ok env1 s s1 t1 h
  simp [InitEtcdClient, hflag]

theorem initEtcdClient_idempotent_witness :
    ∃ s1 t1, InitEtcdClient envOK initialState = Except.ok (s1, t1) ∧
      InitEtcdClient envBadGetW s1 = Except.ok (s1, []) :=
  ⟨_, _, rfl,
    initEtcdClient_idempotent envOK envBadGetW initialState _ _ rfl⟩

/-! ## C10 -/

/-- C10: whenever `StartCompaginLeader` completes, the election options
it constructed carry an empty campaign namespace field and the leader
unique name read from the `mds.listen.addr` configuration key. -/
theorem startCompaginLeader_option_fields (env : Env) (fuel : Nat)
    (s s2 : MdsState) (t : List Event)
    (h : StartCompaginLeader env fuel s = some (Except.ok (s2, t))) :
    ∃ opt, s2.leaderElection_ = some opt ∧
      opt.campaginPrefixStr = "" ∧
      opt.leaderUniqueName = env.conf "mds.listen.addr" := by
  simp only [StartCompaginLeader, InitLeaderElectionOption] at h
  split at h
  · simp at h
  · split at h
    · simp at h
    · rw [Option.some.injEq, Except.ok.injEq, Prod.mk.injEq] at h
      obtain ⟨hs, -⟩ := h
      rw [← hs]
      exact ⟨_, rfl, rfl, rfl⟩

theorem startCompaginLeader_option_fields_witness :
    ∃ s2 t, StartCompaginLeader envOK 1 sEtcdInitedW =
        some (Except.ok (s2, t)) ∧
      ∃ opt, s2.leaderElection_ = some opt ∧
        opt.campaginPrefixStr = "" ∧
        opt.leaderUniqueName = envOK.conf "mds.listen.addr" :=
  ⟨_, _, rfl,
    startCompaginLeader_option_fields envOK 1 sEtcdInitedW _ _ rfl⟩

/-! ## Trace lemmas for the etcd client and the campaign loop -/

theorem checkEtcd_trace (env : Env) :
    ∀ e ∈ (CheckEtcd env).2, quietEvent e = true := by
  intro e he
  unfold CheckEtcd at he
  split at he <;> simp at he <;>
    rcases he with rfl | rfl <;> rfl

theorem initEtcdClient_ok_quiet (env : Env) (s s1 : MdsState)
    (t : List Event) (h : InitEtcdClient env s = Except.ok (s1, t)) :
    ∀ e ∈ t, quietEvent e = true := by
  simp only [InitEtcdClient, InitEtcdConf] at h
  split at h
  · rw [Except.ok.injEq, Prod.mk.injEq] at h
    obtain ⟨-, ht⟩ := h
    rw [← ht]
    intro e he
    simp at he
  · split at h
    · simp at h
    · split at h
      · rw [Except.ok.injEq, Prod.mk.injEq] at h
        obtain ⟨-, ht⟩ := h
        rw [← ht]
        intro e he
        simp only [List.append_assoc, List.mem_append, List.mem_cons,
          List.mem_singleton, List.not_mem_nil, or_false] at he
        rcases he with he | he | he | he
        · rcases he with rfl | rfl | rfl | rfl <;> rfl
        · rcases he with rfl | rfl | rfl | rfl <;> rfl
        · exact checkEtcd_trace env e he
        · rcases he with rfl
          rfl
      · simp at h

theorem quiet_no_campaign (t : List Event)
    (hq : ∀ e ∈ t, quietEvent e = true) : Event.campaign ∉ t := by
  intro hm
  have := hq _ hm
  simp [quietEvent] at this

theorem quiet_no_setStatus (t : List Event)
    (hq : ∀ e ∈ t, quietEvent e = true) :
    ∀ v, Event.setStatus v ∉ t := by
  intro v hm
  have := hq _ hm
  simp [quietEvent] at this

theorem campaignLoop_success (f : Nat → Int) :
    ∀ N fuel i : Nat, (∀ j, j < N → f (i + j) ≠ 0) → f (i + N) = 0 →
    N < fuel →
    ∃ t, campaignLoop f fuel i = some t ∧
      t.count Event.campaign = N + 1 ∧
      ∀ e ∈ t, e = Event.campaign ∨ e = Event.logInfo := by
  intro N
  induction N with
  | zero =>
    intro fuel i hf h0 hfuel
    match fuel, hfuel with
    | fuel + 1, _ =>
      have h0a : f i = 0 := by simpa using h0
      refine ⟨[Event.campaign], ?_, ?_, ?_⟩
      · simp [campaignLoop, h0a]
      · simp
      · intro e he
        simp at he
        exact Or.inl he
  | succ n ih =>
    intro fuel i hf h0 hfuel
    match fuel, hfuel with
    | fuel + 1, hfuel =>
      have hi : f i ≠ 0 := by
        have := hf 0 (Nat.succ_pos n)
        simpa using this
      have hfa : ∀ j, j < n → f (i + 1 + j) ≠ 0 := by
        intro j hj
        have hx := hf (j + 1) (Nat.succ_lt_succ hj)
        have heq : i + (j + 1) = i + 1 + j := by omega
        rw [heq] at hx
        exact hx
      have h0a : f (i + 1 + n) = 0 := by
        have heq : i + (n + 1) = i + 1 + n := by omega
        rw [heq] at h0
        exact h0
      obtain ⟨t, ht, hcount, hall⟩ :=
        ih fuel (i + 1) hfa h0a (Nat.lt_of_succ_lt_succ hfuel)
      refine ⟨Event.campaign :: Event.logInfo :: t, ?_, ?_, ?_⟩
      · simp [campaignLoop, hi, ht]
      · simp [List.count_cons, hcount]
      · intro e he
        rcases he with _ | ⟨_, he⟩
        · exact Or.inl rfl
        · rcases he with _ | ⟨_, he⟩
          · exact Or.inr rfl
          · exact hall e he

/-! ## C4 -/

/-- C4: if the first `N` campaign calls return non-zero and the
`(N+1)`-th returns `0`, then `StartCompaginLeader` (entered with a
healthy etcd client) performs exactly `N+1` campaign calls, publishes
`"leader"` only after all of them, and then starts the leadership
observer as its final action. -/
theorem campaign_retry_count (env : Env) (s s1 : MdsState)
    (t1 : List Event) (N fuel : Nat)
    (hEtcd : InitEtcdClient env s = Except.ok (s1, t1))
    (hfail : ∀ i, i < N → env.campaignResult i ≠ 0)
    (hsucc : env.campaignResult N = 0)
    (hfuel : N < fuel) :
    ∃ s2 t, StartCompaginLeader env fuel s = some (Except.ok (s2, t)) ∧
      t.count Event.campaign = N + 1 ∧
      ∃ A, t = A ++ [Event.setStatus "leader", Event.startObserverLeader] ∧
        A.count Event.campaign = N + 1 ∧
        Event.setStatus "leader" ∉ A := by
  obtain ⟨tl, htl, hcount, hall⟩ :=
    campaignLoop_success env.campaignResult N fuel 0
      (by intro j hj; simpa using hfail j hj) (by simpa using hsucc) hfuel
  have hq := initEtcdClient_ok_quiet env s s1 t1 hEtcd
  have hrun : StartCompaginLeader env fuel s =
      some (Except.ok
        ({ s1 with
            leaderElection_ := some
              { leaderUniqueName := env.conf "mds.listen.addr"
                sessionInterSec := env.conf "leader.sessionInterSec"
                electionTimeoutMs := env.conf "leader.electionTimeoutMs"
                campaginPrefixStr := ""
                etcdCliAttached := true }
            status_ := some "leader" },
         t1 ++ [Event.configRead "mds.listen.addr",
                Event.configRead "leader.sessionInterSec",
                Event.configRead "leader.electionTimeoutMs"] ++
           [Event.constructLeaderElection] ++ tl ++
           [Event.logInfo, Event.setStatus "leader",
            Event.startObserverLeader])) := by
    simp [StartCompaginLeader, InitLeaderElectionOption,
      defaultElectionOptions, hEtcd, htl]
  refine ⟨_, _, hrun, ?_, ?_⟩
  · have hnc : t1.count Event.campaign = 0 :=
      List.count_eq_zero.mpr (quiet_no_campaign t1 hq)
    simp [List.count_append, List.count_cons, hnc, hcount]
  · refine ⟨t1 ++ [Event.configRead "mds.listen.addr",
        Event.configRead "leader.sessionInterSec",
        Event.configRead "leader.electionTimeoutMs"] ++
      [Event.constructLeaderElection] ++ tl ++ [Event.logInfo],
      ?_, ?_, ?_⟩
    · simp [List.append_assoc]
    · have hnc : t1.count Event.campaign = 0 :=
        List.count_eq_zero.mpr (quiet_no_campaign t1 hq)
      simp [List.count_append, List.count_cons, hnc, hcount]
    · intro hm
      simp only [List.append_assoc, List.mem_append, List.mem_cons,
        List.mem_singleton, List.not_mem_nil, or_false] at hm
      rcases hm with hm | hm | hm | hm | hm
      · exact quiet_no_setStatus t1 hq "leader" hm
      · rcases hm with hm | hm | hm <;> simp at hm
      · simp at hm
      · rcases hall _ hm with hm | hm <;> simp at hm
      · simp at hm

theorem campaign_retry_count_witness :
    ∃ s2 t, StartCompaginLeader envRetryW 2 sEtcdInitedW =
        some (Except.ok (s2, t)) ∧
      t.count Event.campaign = 1 + 1 ∧
      ∃ A, t = A ++ [Event.setStatus "leader", Event.startObserverLeader] ∧
        A.count Event.campaign = 1 + 1 ∧
        Event.setStatus "leader" ∉ A :=
  campaign_retry_count envRetryW sEtcdInitedW sEtcdInitedW [] 1 2 rfl
    (by decide) (by decide) (by decide)

/-! ## Status-write lemmas for each lifecycle operation -/

theorem campaignLoop_elements (f : Nat → Int) :
    ∀ fuel i t, campaignLoop f fuel i = some t →
    ∀ e ∈ t, e = Event.campaign ∨ e = Event.logInfo := by
  intro fuel
  induction fuel with
  | zero => intro i t h; simp [campaignLoop] at h
  | succ n ih =>
    intro i t h e he
    simp only [campaignLoop] at h
    split at h
    · rw [Option.some.injEq] at h
      rw [← h] at he
      simp at he
      exact Or.inl he
    · split at h
      · simp at h
      · next t2 h2 =>
        rw [Option.some.injEq] at h
        rw [← h] at he
        rcases he with _ | ⟨_, he⟩
        · exact Or.inl rfl
        · rcases he with _ | ⟨_, he⟩
          · exact Or.inr rfl
          · exact ih (i + 1) t2 h2 e he

theorem init_ok_statusWrites (env : Env) (s s1 : MdsState)
    (t : List Event) (h : Init env s = Except.ok (s1, t)) :
    statusWrites t = [] := by
  simp only [Init] at h
  split at h
  · simp at h
  · next st heq =>
    split at h
    · rw [Except.ok.injEq, Prod.mk.injEq] at h
      obtain ⟨-, ht⟩ := h
      rw [← ht]
      have hq := initEtcdClient_ok_quiet env s st.1 st.2 heq
      have h2 : statusWrites st.2 = [] :=
        statusWrites_eq_nil _ (quiet_no_setStatus _ hq)
      simp only [statusWrites] at h2 ⊢
      simp [h2]
    · simp at h

theorem startDummy_ok_statusWrites (env : Env) (s s1 : MdsState)
    (t : List Event) (h : StartDummyServer env s = Except.ok (s1, t)) :
    statusWrites t = ["follower"] := by
  simp only [StartDummyServer] at h
  split at h
  · simp at h
  · rw [Except.ok.injEq, Prod.mk.injEq] at h
    obtain ⟨-, ht⟩ := h
    rw [← ht]
    rfl

theorem startCompagin_ok_statusWrites (env : Env) (fuel : Nat)
    (s s2 : MdsState) (t : List Event)
    (h : StartCompaginLeader env fuel s = some (Except.ok (s2, t))) :
    statusWrites t = ["leader"] := by
  simp only [StartCompaginLeader, InitLeaderElectionOption] at h
  split at h
  · simp at h
  · next st heq =>
    split at h
    · simp at h
    · next t3 hloop =>
      rw [Option.some.injEq, Except.ok.injEq, Prod.mk.injEq] at h
      obtain ⟨-, ht⟩ := h
      rw [← ht]
      have hq := initEtcdClient_ok_quiet env s st.1 st.2 heq
      have h2 : statusWrites st.2 = [] :=
        statusWrites_eq_nil _ (quiet_no_setStatus _ hq)
      have h3 : statusWrites t3 = [] := by
        apply statusWrites_eq_nil
        intro v hv
        rcases campaignLoop_elements env.campaignResult fuel 0 t3 hloop
          _ hv with hx | hx <;> simp at hx
      simp only [statusWrites] at h2 h3 ⊢
      simp [h2, h3]

theorem run_ok_statusWrites (env : Env) (s s1 : MdsState)
    (t : List Event) (h : Run env s = Except.ok (s1, t)) :
    statusWrites t = [] := by
  simp only [Run] at h
  split at h
  · rw [Except.ok.injEq, Prod.mk.injEq] at h
    obtain ⟨-, ht⟩ := h
    rw [← ht]
    rfl
  · split at h
    · simp at h
    · split at h
      · simp at h
      · rw [Except.ok.injEq, Prod.mk.injEq] at h
        obtain ⟨-, ht⟩ := h
        rw [← ht]
        rfl

theorem stop_statusWrites (s : MdsState) :
    statusWrites (Stop s).2 = [] := by
  by_cases h : s.running_ = false <;> simp [Stop, h] <;> rfl

/-! ## C5 -/

/-- C5: under the prescribed sequential driving order (`InitOptions`,
`Init`, `StartDummyServer`, `StartCompaginLeader`, `Run`, `Stop`), a
completed lifetime publishes exactly the status values `"follower"` then
`"leader"` — only those two values ever appear, and no `"follower"` is
published after a `"leader"`. -/
theorem leadership_monotone (env : Env) (fuel : Nat) (s2 : MdsState)
    (t : List Event)
    (h : driver env fuel = some (Except.ok (s2, t))) :
    statusWrites t = ["follower", "leader"] ∧
    ∀ A B, t = A ++ Event.setStatus "leader" :: B →
      Event.setStatus "follower" ∉ B := by
  have h1 : statusWrites t = ["follower", "leader"] := by
    simp only [driver] at h
    split at h
    · simp at h
    · next st1 hInit =>
      split at h
      · simp at h
      · next st2 hDummy =>
        split at h
        · simp at h
        · simp at h
        · next st3 hCamp =>
          split at h
          · simp at h
          · next st4 hRun =>
            rw [Option.some.injEq, Except.ok.injEq, Prod.mk.injEq] at h
            obtain ⟨-, ht⟩ := h
            rw [← ht]
            have e2 := init_ok_statusWrites env _ st1.1 st1.2 hInit
            have e3 := startDummy_ok_statusWrites env st1.1 st2.1 st2.2 hDummy
            have e4 := startCompagin_ok_statusWrites env fuel st2.1 st3.1
              st3.2 hCamp
            have e5 := run_ok_statusWrites env st3.1 st4.1 st4.2 hRun
            have e6 := stop_statusWrites st4.1
            simp only [statusWrites] at e2 e3 e4 e5 e6 ⊢
            simp [InitOptions, e2, e3, e4, e5, e6]
  refine ⟨h1, ?_⟩
  intro A B hAB hmem
  have hB : "follower" ∈ statusWrites B := mem_statusWrites_of_mem _ _ hmem
  rw [hAB, statusWrites_append] at h1
  have hcons : statusWrites (Event.setStatus "leader" :: B) =
      "leader" :: statusWrites B := by
    simp [statusWrites, List.filterMap_cons]
  rw [hcons] at h1
  rcases hA : statusWrites A with _ | ⟨x, xs⟩ <;> rw [hA] at h1
  · simp at h1
  · rcases xs with _ | ⟨y, ys⟩ <;> simp at h1
    rw [h1.2] at hB
    simp at hB

theorem leadership_monotone_witness :
    ∃ s2 t, driver envOK 1 = some (Except.ok (s2, t)) ∧
      (statusWrites t = ["follower", "leader"] ∧
      ∀ A B, t = A ++ Event.setStatus "leader" :: B →
        Event.setStatus "follower" ∉ B) :=
  ⟨_, _, rfl, leadership_monotone envOK 1 _ _ rfl⟩

/-! ## C7 -/

/-- C7 counterexample: `driverFinalW` is the state left by a full
lifecycle run whose `Stop` already executed in the `Running` state.  The
claim says the state is now `Stopped` and a subsequent `Stop` call is a
no-op that does not signal the RPC server or invoke `Uninit` again; in
fact no field changed (`running_` is still `true`) and the subsequent
call emits both effects again. -/
theorem stop_no_stopped_state_counterexample :
    driverFinalW.running_ = true ∧
    (Stop driverFinalW).1 = driverFinalW ∧
    Event.askToQuit ∈ (Stop driverFinalW).2 ∧
    Event.fsManagerUninit ∈ (Stop driverFinalW).2 := by
  decide

/-- C7 amended: the lifecycle has no `Stopped` state: `Stop` called
while `running_` is true leaves every field unchanged — `running_` stays
`true` — so a subsequent `Stop` produces exactly the same effects,
signalling the RPC server to quit and invoking `Uninit` again; the state
never moves on this path (in particular it never re-enters `Running`
because it never leaves it). -/
theorem stop_in_running_repeats (s : MdsState) (h : s.running_ = true) :
    (Stop s).1 = s ∧
    (Stop s).2 = [Event.logInfo, Event.askToQuit, Event.fsManagerUninit] ∧
    Stop (Stop s).1 = Stop s := by
  have hs : Stop s =
      (s, [Event.logInfo, Event.askToQuit, Event.fsManagerUninit]) := by
    simp [Stop, h]
  rw [hs]
  exact ⟨rfl, rfl, hs⟩

theorem stop_in_running_repeats_witness :
    (Stop driverFinalW).1 = driverFinalW ∧
    (Stop driverFinalW).2 =
      [Event.logInfo, Event.askToQuit, Event.fsManagerUninit] ∧
    Stop (Stop driverFinalW).1 = Stop driverFinalW :=
  stop_in_running_repeats driverFinalW (by decide)

/-! ## C8 -/

theorem stop_state (s : MdsState) : (Stop s).1 = s := by
  by_cases h : s.running_ = false <;> simp [Stop, h]

theorem initEtcdClient_fields (env : Env) (s : MdsState)
    (st : MdsState × List Event)
    (h : InitEtcdClient env s = Except.ok st) :
    st.1.inited_ = s.inited_ ∧ st.1.running_ = s.running_ := by
  simp only [InitEtcdClient, InitEtcdConf] at h
  split at h
  · rw [Except.ok.injEq] at h
    rw [← h]
    exact ⟨rfl, rfl⟩
  · split at h
    · simp at h
    · split at h
      · rw [Except.ok.injEq] at h
        rw [← h]
        exact ⟨rfl, rfl⟩
      · simp at h

theorem init_fields (env : Env) (s : MdsState)
    (st : MdsState × List Event) (h : Init env s = Except.ok st) :
    st.1.inited_ = true ∧ st.1.running_ = s.running_ := by
  simp only [Init] at h
  split at h
  · simp at h
  · next st0 heq =>
    split at h
    · rw [Except.ok.injEq] at h
      rw [← h]
      exact ⟨rfl, (initEtcdClient_fields env s st0 heq).2⟩
    · simp at h

theorem startDummy_fields (env : Env) (s : MdsState)
    (st : MdsState × List Event)
    (h : StartDummyServer env s = Except.ok st) :
    st.1.inited_ = s.inited_ ∧ st.1.running_ = s.running_ := by
  simp only [StartDummyServer] at h
  split at h
  · simp at h
  · rw [Except.ok.injEq] at h
    rw [← h]
    exact ⟨rfl, rfl⟩

theorem startCompagin_fields (env : Env) (fuel : Nat) (s : MdsState)
    (st : MdsState × List Event)
    (h : StartCompaginLeader env fuel s = some (Except.ok st)) :
    st.1.inited_ = s.inited_ ∧ st.1.running_ = s.running_ := by
  simp only [StartCompaginLeader, InitLeaderElectionOption] at h
  split at h
  · simp at h
  · next st0 heq =>
    split at h
    · simp at h
    · rw [Option.some.injEq, Except.ok.injEq] at h
      rw [← h]
      exact initEtcdClient_fields env s st0 heq

theorem run_preserves_inv (env : Env) (s : MdsState)
    (st : MdsState × List Event) (h : Run env s = Except.ok st)
    (hs : s.running_ = true → s.inited_ = true) :
    st.1.running_ = true → st.1.inited_ = true := by
  simp only [Run] at h
  split at h
  · rw [Except.ok.injEq] at h
    rw [← h]
    exact hs
  · next hni =>
    split at h
    · simp at h
    · split at h
      · simp at h
      · rw [Except.ok.injEq] at h
        rw [← h]
        intro _
        show s.inited_ = true
        simpa using hni

/-- C8: in every reachable state of the `Mds` object, `running_ = true`
implies `inited_ = true`: `running_` is set to `true` only inside `Run`
after the `inited_` guard has passed, and no operation sets it by any
other path or ever clears `inited_`. -/
theorem running_implies_inited (s : MdsState) (h : Reachable s) :
    s.running_ = true → s.inited_ = true := by
  induction h with
  | start =>
    intro hr
    simp [initialState] at hr
  | initOptions env s0 _ ih =>
    intro hr
    exact ih hr
  | initOp env s0 st _ heq _ =>
    intro _
    exact (init_fields env s0 st heq).1
  | initEtcd env s0 st _ heq ih =>
    intro hr
    have hf := initEtcdClient_fields env s0 st heq
    rw [hf.1]
    exact ih (by rw [← hf.2]; exact hr)
  | dummy env s0 st _ heq ih =>
    intro hr
    have hf := startDummy_fields env s0 st heq
    rw [hf.1]
    exact ih (by rw [← hf.2]; exact hr)
  | campaignOp env fuel s0 st _ heq ih =>
    intro hr
    have hf := startCompagin_fields env fuel s0 st heq
    rw [hf.1]
    exact ih (by rw [← hf.2]; exact hr)
  | runOp env s0 st _ heq ih =>
    exact run_preserves_inv env s0 st heq ih
  | stopOp s0 _ ih =>
    intro hr
    rw [stop_state s0] at hr ⊢
    exact ih hr

theorem running_implies_inited_witness :
    sAfterRunW.running_ = true ∧ sAfterRunW.inited_ = true := by
  have h1 : Reachable (InitOptions envOK initialState).1 :=
    Reachable.initOptions envOK initialState Reachable.start
  have h2 : Reachable sAfterInitW :=
    Reachable.initOp envOK (InitOptions envOK initialState).1 _ h1 rfl
  have h3 : Reachable sAfterRunW :=
    Reachable.runOp envOK sAfterInitW _ h2 rfl
  exact ⟨by decide, running_implies_inited sAfterRunW h3 (by decide)⟩

end CurveMds
